import Mathlib

/-!
Shallow embedding of the llmLoadBalancer core (src/load-balancer.ts,
src/strategies.ts, src/types.ts) and proofs about it.

Modelling conventions:
- JavaScript numbers are modelled as Nat (integral quantities: timeouts,
  retry counts, delays) or as ℚ (latencies and the running average, where
  division occurs).  JS float division is modelled by exact rational
  division.
- JS objects used as string-keyed maps are modelled as functions
  String → Option α; Map.set / delete / object-index assignment become
  pointwise function update (setFn).
- Falsy-default expressions (x || d), where x is a possibly-undefined
  number, are modelled by jsOrNat / jsOrQ: both undefined (none) and 0
  select the default, matching JS truthiness.
- Thrown exceptions become Except values.
- The provider adapter object returned by createProvider is modelled by
  the ProviderConfig it was constructed from (the dispatcher never
  inspects it beyond identity).
-/

/-- Token usage breakdown of a response (types.ts, LLMResponse.usage). -/
structure Usage where
  promptTokens : Nat
  completionTokens : Nat
  totalTokens : Nat
deriving DecidableEq, Repr

/-- Normalized provider response (types.ts, LLMResponse). -/
structure LLMResponse where
  content : String
  usage : Option Usage
  model : String
  provider : String
  finishReason : Option String
deriving DecidableEq, Repr

/-- Typed provider error (types.ts, LLMError).  The originalError field
holds the message of the underlying cause when present. -/
structure LLMError where
  message : String
  provider : String
  statusCode : Option Nat
  originalError : Option String
deriving DecidableEq, Repr

/-- Aggregate failure of the retry loop (types.ts, LoadBalancerError). -/
structure LoadBalancerError where
  message : String
  errors : List LLMError
deriving DecidableEq, Repr

/-- Provider descriptor (types.ts, ProviderConfig). -/
structure ProviderConfig where
  name : String
  apiKey : String
  model : String
  baseUrl : Option String
  weight : Option ℚ
  timeout : Option Nat
  maxRetries : Option Nat
deriving DecidableEq, Repr

/-- Per-provider statistics record (types.ts, ProviderStats).
Timestamps are abstract rationals. -/
structure ProviderStats where
  totalRequests : Nat
  successfulRequests : Nat
  failedRequests : Nat
  averageResponseTime : ℚ
  lastRequestTime : Option ℚ
  isHealthy : Bool
deriving DecidableEq, Repr

/-- Dispatcher configuration (types.ts, LoadBalancerConfig).  The
strategy field is the strategy-kind string handed to createStrategy. -/
structure LoadBalancerConfig where
  strategy : String
  providers : List ProviderConfig
  customStrategy : Option (List ProviderConfig → ProviderConfig)
  globalTimeout : Option Nat
  maxRetries : Option Nat
  retryDelay : Option Nat

/-- JS expression x || d for a possibly-undefined number x: undefined and
0 are falsy, so both fall through to the default. -/
def jsOrNat : Option Nat → Nat → Nat
  | none, d => d
  | some 0, d => d
  | some (n + 1), _ => n + 1

/-- JS expression x || d for a possibly-undefined rational number. -/
def jsOrQ (x : Option ℚ) (d : ℚ) : ℚ :=
  match x with
  | none => d
  | some q => if q = 0 then d else q

/-- Pointwise update of a string-keyed map (JS object index assignment,
Map.set, or delete when the new value is none). -/
def setFn {α : Type} (m : String → Option α) (k : String) (v : Option α) :
    String → Option α :=
  fun n => if n = k then v else m n

/-- The zeroed healthy record installed by initializeProviders and
addProvider (load-balancer.ts lines 35-41 and 184-190). -/
def freshStats : ProviderStats :=
  { totalRequests := 0
    successfulRequests := 0
    failedRequests := 0
    averageResponseTime := 0
    lastRequestTime := none
    isHealthy := true }

/-- One step of updateStats on a single record (load-balancer.ts lines
113-133): increment totalRequests, stamp lastRequestTime, on success
increment successfulRequests and fold the latency into the incremental
mean, on failure increment failedRequests, then recompute isHealthy from
the success rate. -/
def updateStatsRecord (success : Bool) (responseTime now : ℚ)
    (s : ProviderStats) : ProviderStats :=
  let total := s.totalRequests + 1
  let succCount := if success then s.successfulRequests + 1 else s.successfulRequests
  let failed := if success then s.failedRequests else s.failedRequests + 1
  let avg :=
    if success then
      (s.averageResponseTime * ((succCount : ℚ) - 1) + responseTime) / (succCount : ℚ)
    else s.averageResponseTime
  { totalRequests := total
    successfulRequests := succCount
    failedRequests := failed
    averageResponseTime := avg
    lastRequestTime := some now
    isHealthy := decide (((succCount : ℚ) / (total : ℚ)) > 1 / 2) }

/-- updateStats at the map level: a no-op when the provider has no stats
entry (the defensive early return at line 115). -/
def updateStatsMap (m : String → Option ProviderStats) (name : String)
    (success : Bool) (responseTime now : ℚ) : String → Option ProviderStats :=
  fun n =>
    if n = name then (m name).map (updateStatsRecord success responseTime now)
    else m n

/-- Provider names accepted by the createProvider factory
(providers.ts lines 374-397). -/
def supportedProviderNames : List String :=
  ["openai", "claude", "gemini", "cohere", "mistral",
   "perplexity", "ollama", "together", "groq"]

/-- Character-wise lower-casing, modelling the JS toLowerCase call on
provider names (ASCII in all supported names). -/
def jsToLower (s : String) : String :=
  ⟨s.data.map Char.toLower⟩

/-- createProvider (providers.ts): switch on the lower-cased name,
throwing on an unsupported provider.  The adapter is represented by the
config it was built from. -/
def createProvider (cfg : ProviderConfig) : Except String ProviderConfig :=
  if supportedProviderNames.contains (jsToLower cfg.name) then .ok cfg
  else .error ("Unsupported provider: " ++ cfg.name)

/-- Policy state held by a strategy object (strategies.ts): the
round-robin cursor, the weighted cumulative table, or the injected
custom function. -/
inductive StrategyState where
  | roundRobin (currentIndex : Nat)
  | failover
  | weighted (cumulativeWeights : List ℚ) (totalWeight : ℚ)
  | custom (f : List ProviderConfig → ProviderConfig)

/-- Cumulative weight table of WeightedStrategy.calculateWeights
(strategies.ts lines 48-57), carrying the running total. -/
def cumWeightsAux (acc : ℚ) : List ProviderConfig → List ℚ
  | [] => []
  | p :: ps =>
    let w := jsOrQ p.weight 1
    (acc + w) :: cumWeightsAux (acc + w) ps

/-- The cumulativeWeights array after calculateWeights. -/
def calcCumWeights (ps : List ProviderConfig) : List ℚ :=
  cumWeightsAux 0 ps

/-- The totalWeight field after calculateWeights. -/
def totalWeightOf (ps : List ProviderConfig) : ℚ :=
  (ps.map (fun p => jsOrQ p.weight 1)).sum

/-- The in-order scan of FailoverStrategy.selectProvider (strategies.ts
lines 28-33): first provider whose stats entry is absent or healthy. -/
def failoverScan (stats : String → Option ProviderStats) :
    List ProviderConfig → Option ProviderConfig
  | [] => none
  | p :: ps =>
    match stats p.name with
    | none => some p
    | some s => if s.isHealthy then some p else failoverScan stats ps

/-- The scan of WeightedStrategy.selectProvider (strategies.ts lines
71-75): first index whose cumulative weight is at least the draw. -/
def weightedScan (random : ℚ) : List ℚ → List ProviderConfig → Option ProviderConfig
  | c :: cs, p :: ps => if random ≤ c then some p else weightedScan random cs ps
  | _, _ => none

/-- selectProvider for each strategy variant (strategies.ts).  The
result carries the possibly-selected provider and the successor policy
state; r models the Math.random() draw in [0,1).  A none provider models
the JS undefined produced by an out-of-range round-robin cursor (the
guard only checks for an empty list).  CustomStrategy performs no empty
check and delegates directly to the injected function. -/
def selectProvider (st : StrategyState) (providers : List ProviderConfig)
    (stats : String → Option ProviderStats) (r : ℚ) :
    Except String (Option ProviderConfig × StrategyState) :=
  match st with
  | .roundRobin idx =>
    if providers.length = 0 then .error "No providers available"
    else .ok (providers[idx]?, .roundRobin ((idx + 1) % providers.length))
  | .failover =>
    if providers.length = 0 then .error "No providers available"
    else
      match failoverScan stats providers with
      | some p => .ok (some p, .failover)
      | none => .ok (providers[0]?, .failover)
  | .weighted cum total =>
    if providers.length = 0 then .error "No providers available"
    else
      let cum2 := if cum.length ≠ providers.length then calcCumWeights providers else cum
      let total2 := if cum.length ≠ providers.length then totalWeightOf providers else total
      let random := r * total2
      match weightedScan random cum2 providers with
      | some p => .ok (some p, .weighted cum2 total2)
      | none => .ok (providers.getLast?, .weighted cum2 total2)
  | .custom f => .ok (some (f providers), .custom f)

/-- createStrategy (strategies.ts lines 90-112): dispatch on the
strategy-kind string; the custom kind requires the injected function. -/
def createStrategy (strategyType : String) (providers : List ProviderConfig)
    (customStrategy : Option (List ProviderConfig → ProviderConfig)) :
    Except String StrategyState :=
  if strategyType = "round-robin" then .ok (.roundRobin 0)
  else if strategyType = "failover" then .ok .failover
  else if strategyType = "weighted" then
    .ok (.weighted (calcCumWeights providers) (totalWeightOf providers))
  else if strategyType = "custom" then
    match customStrategy with
    | none => .error "Custom strategy function is required for custom strategy type"
    | some f => .ok (.custom f)
  else .error ("Unsupported strategy: " ++ strategyType)

/-- Dispatcher state: the config (whose providers list is mutated by
addProvider and removeProvider), the adapter map, the stats map and the
strategy object (load-balancer.ts lines 13-17). -/
structure LBState where
  config : LoadBalancerConfig
  providers : String → Option ProviderConfig
  stats : String → Option ProviderStats
  strategy : StrategyState

/-- The loop of initializeProviders (load-balancer.ts lines 29-43):
construct each adapter and install a fresh zeroed stats record; a
createProvider throw aborts construction. -/
def initMaps : List ProviderConfig → (String → Option ProviderConfig) →
    (String → Option ProviderStats) →
    Except String ((String → Option ProviderConfig) × (String → Option ProviderStats))
  | [], pm, sm => .ok (pm, sm)
  | c :: cs, pm, sm =>
    match createProvider c with
    | .error e => .error e
    | .ok ad => initMaps cs (setFn pm c.name (some ad)) (setFn sm c.name (some freshStats))

/-- The constructor (load-balancer.ts lines 19-27): initializeProviders
then createStrategy. -/
def initialState (cfg : LoadBalancerConfig) : Except String LBState :=
  match initMaps cfg.providers (fun _ => none) (fun _ => none) with
  | .error e => .error e
  | .ok (pm, sm) =>
    match createStrategy cfg.strategy cfg.providers cfg.customStrategy with
    | .error e => .error e
    | .ok strat => .ok { config := cfg, providers := pm, stats := sm, strategy := strat }

/-- Names of the configured providers. -/
def configuredNames (st : LBState) : List String :=
  st.config.providers.map ProviderConfig.name

/-- Effect of healthCheck on the stats map (load-balancer.ts lines
149-177): for every configured provider whose adapter exists, the probe
outcome (true on a successful minimal request, false on any throw) is
written directly into isHealthy; counters are untouched.  A provider
missing from the adapter map is reported unhealthy in the returned map
but its stats record is not written (early return at line 157). -/
def healthCheckStats (st : LBState) (probe : String → Bool) : LBState :=
  { st with
    stats := fun n =>
      if (configuredNames st).contains n && (st.providers n).isSome then
        (st.stats n).map (fun s => { s with isHealthy := probe n })
      else st.stats n }

/-- addProvider (load-balancer.ts lines 179-198): build the adapter
(replacing any existing adapter under the same name), append the
descriptor to the configured list, reset the stats entry to a fresh
zeroed healthy record, and rebuild the strategy.  In JS a createStrategy
throw would escape after the mutations; that corner is unreachable from
a successfully constructed balancer, and the model discards the partial
state on error. -/
def addProvider (st : LBState) (cfg : ProviderConfig) : Except String LBState :=
  match createProvider cfg with
  | .error e => .error e
  | .ok ad =>
    let providers2 := setFn st.providers cfg.name (some ad)
    let cfgList := st.config.providers ++ [cfg]
    let stats2 := setFn st.stats cfg.name (some freshStats)
    match createStrategy st.config.strategy cfgList st.config.customStrategy with
    | .error e => .error e
    | .ok strat =>
      .ok { config := { st.config with providers := cfgList }
            providers := providers2
            stats := stats2
            strategy := strat }

/-- removeProvider (load-balancer.ts lines 200-213): delete the adapter,
filter the descriptor out, delete the stats entry, rebuild the
strategy. -/
def removeProvider (st : LBState) (name : String) : Except String LBState :=
  let providers2 := setFn st.providers name none
  let cfgList := st.config.providers.filter (fun p => p.name != name)
  let stats2 := setFn st.stats name none
  match createStrategy st.config.strategy cfgList st.config.customStrategy with
  | .error e => .error e
  | .ok strat =>
    .ok { config := { st.config with providers := cfgList }
          providers := providers2
          stats := stats2
          strategy := strat }

/-- The statistics-mutating operations of the dispatcher. -/
inductive DispatcherOp where
  | update (name : String) (success : Bool) (elapsed : ℚ) (now : ℚ)
  | add (cfg : ProviderConfig)
  | remove (name : String)
  | health (probe : String → Bool)

/-- Whether an operation is the health sweep. -/
def DispatcherOp.isHealth : DispatcherOp → Bool
  | .health _ => true
  | _ => false

/-- Apply one dispatcher operation to the state. -/
def applyOp (st : LBState) : DispatcherOp → Except String LBState
  | .update name success elapsed now =>
    .ok { st with stats := updateStatsMap st.stats name success elapsed now }
  | .add cfg => addProvider st cfg
  | .remove name => removeProvider st name
  | .health probe => .ok (healthCheckStats st probe)

/-- The per-record invariant of the spec: counters sum up, and (when any
attempt happened) the health flag is exactly the over-one-half success
rate; a fresh record is healthy. -/
def statsInvariant (s : ProviderStats) : Prop :=
  s.totalRequests = s.successfulRequests + s.failedRequests ∧
  (0 < s.totalRequests →
    s.isHealthy = decide (((s.successfulRequests : ℚ) / (s.totalRequests : ℚ)) > 1 / 2)) ∧
  (s.totalRequests = 0 → s.isHealthy = true)

/-- Every stats record of the state satisfies the invariant. -/
def statsOK (st : LBState) : Prop :=
  ∀ n s, st.stats n = some s → statsInvariant s

/-- Every stats record of the state satisfies the counter equation. -/
def sumOK (st : LBState) : Prop :=
  ∀ n s, st.stats n = some s →
    s.totalRequests = s.successfulRequests + s.failedRequests

/-- Outcome of one attempt's makeRequestWithTimeout call, as seen by the
retry loop: a response with its elapsed wall time, a typed LLMError, or
a non-typed throw carrying only a message. -/
inductive AttemptOutcome where
  | success (resp : LLMResponse) (elapsed : ℚ)
  | failLLM (e : LLMError)
  | failRaw (msg : String)

/-- Environment of one request() run: the network/timeout outcome of the
attempt-indexed adapter call, the Math.random() draw, and the wall clock
read by updateStats. -/
structure RunEnv where
  oracle : Nat → AttemptOutcome
  rand : Nat → ℚ
  now : Nat → ℚ

/-- An LLMError wrapped from a non-LLMError throw (load-balancer.ts
lines 71-74): provider tag unknown, no status code, no cause. -/
def unknownError (msg : String) : LLMError :=
  { message := msg, provider := "unknown", statusCode := none, originalError := none }

/-- The body of one iteration of the retry loop (load-balancer.ts lines
50-87): select a provider, resolve its adapter, perform the raced call,
and apply the success/failure bookkeeping.  A strategy throw or a
missing adapter is caught by the catch block and wrapped as an
unknown-tagged error; a failure tagged with a known provider name
records a failed attempt for that provider. -/
def attemptOnce (env : RunEnv) (st : LBState) (i : Nat) :
    Except LLMError LLMResponse × LBState :=
  match selectProvider st.strategy st.config.providers st.stats (env.rand i) with
  | .error msg => (.error (unknownError msg), st)
  | .ok (none, strat2) =>
    (.error (unknownError "Cannot read properties of undefined"),
     { st with strategy := strat2 })
  | .ok (some p, strat2) =>
    let st2 := { st with strategy := strat2 }
    match st2.providers p.name with
    | none => (.error (unknownError ("Provider " ++ p.name ++ " not found")), st2)
    | some _ =>
      match env.oracle i with
      | .success resp elapsed =>
        (.ok resp,
         { st2 with stats := updateStatsMap st2.stats p.name true elapsed (env.now i) })
      | .failLLM e =>
        (.error e,
         if e.provider = "unknown" then st2
         else { st2 with stats := updateStatsMap st2.stats e.provider false 0 (env.now i) })
      | .failRaw m => (.error (unknownError m), st2)

/-- Result of a request() run: the returned value or aggregate error,
the final dispatcher state, and the backoff delays performed. -/
structure RequestResult where
  result : Except LoadBalancerError LLMResponse
  state : LBState
  delays : List Nat

/-- The aggregate-failure message (load-balancer.ts line 91). -/
def aggMsg (k : Nat) : String :=
  "All providers failed after " ++ toString k ++ " attempts"

/-- The retry loop of request() (load-balancer.ts lines 50-93), with the
remaining iteration count as fuel (initially the effective maxRetries k,
with the attempt counter at 0, matching the for loop exactly).  On
failure the error is appended; a backoff delay of d * 2 ^ attempt is
performed unless this was the last allowed attempt. -/
def requestAux (env : RunEnv) (k d : Nat) :
    Nat → LBState → Nat → List LLMError → List Nat → RequestResult
  | 0, st, _, errors, delays =>
    { result := .error { message := aggMsg k, errors := errors }
      state := st, delays := delays }
  | fuel + 1, st, attempt, errors, delays =>
    match attemptOnce env st attempt with
    | (.ok resp, st2) => { result := .ok resp, state := st2, delays := delays }
    | (.error e, st2) =>
      if attempt < k - 1 then
        requestAux env k d fuel st2 (attempt + 1) (errors ++ [e])
          (delays ++ [d * 2 ^ attempt])
      else
        requestAux env k d fuel st2 (attempt + 1) (errors ++ [e]) delays

/-- request() (load-balancer.ts lines 45-94): effective maxRetries and
retryDelay come from the config through the falsy-default. -/
def request (cfg : LoadBalancerConfig) (env : RunEnv) (st : LBState) : RequestResult :=
  let k := jsOrNat cfg.maxRetries 3
  let d := jsOrNat cfg.retryDelay 1000
  requestAux env k d k st 0 [] []

/-- The sequence of per-attempt errors produced by iterating the loop
body from a given state and attempt index, stopping at a success. -/
def errTrace (env : RunEnv) : Nat → LBState → Nat → List LLMError
  | 0, _, _ => []
  | fuel + 1, st, attempt =>
    match attemptOnce env st attempt with
    | (.ok _, _) => []
    | (.error e, st2) => e :: errTrace env fuel st2 (attempt + 1)

/-- The backoff delays of an all-failing run: d * 2 ^ attempt for every
attempt except the last allowed one. -/
def delayTrace (d k : Nat) : Nat → Nat → List Nat
  | 0, _ => []
  | fuel + 1, attempt =>
    if attempt < k - 1 then (d * 2 ^ attempt) :: delayTrace d k fuel (attempt + 1)
    else delayTrace d k fuel (attempt + 1)

/-- Whether an attempt outcome is a failure. -/
def oracleFails : AttemptOutcome → Bool
  | .success _ _ => false
  | _ => true

/-- The per-attempt timeout of makeRequestWithTimeout (load-balancer.ts
line 101): descriptor timeout, else global timeout, else 30000 ms, with
0 falsy at each step. -/
def computeTimeout (cfg : ProviderConfig) (globalTimeout : Option Nat) : Nat :=
  jsOrNat cfg.timeout (jsOrNat globalTimeout 30000)

/-- The error rejected when the timer wins the race (load-balancer.ts
line 107): tagged with the selected provider's name, no status code. -/
def timeoutError (t : Nat) (name : String) : LLMError :=
  { message := "Request timeout after " ++ toString t ++ "ms"
    provider := name, statusCode := none, originalError := none }

/-- Behavior of the adapter's network call in the race: it settles after
some duration, or never settles. -/
inductive AdapterBehavior where
  | completes (duration : Nat) (result : Except LLMError LLMResponse)
  | hangs

/-- makeRequestWithTimeout (load-balancer.ts lines 96-111): the race of
the adapter call against the timer; the adapter result wins exactly when
it settles strictly before the timer fires. -/
def makeRequestWithTimeout (beh : AdapterBehavior) (cfg : ProviderConfig)
    (globalTimeout : Option Nat) : Except LLMError LLMResponse :=
  let t := computeTimeout cfg globalTimeout
  match beh with
  | .completes d r => if d < t then r else .error (timeoutError t cfg.name)
  | .hangs => .error (timeoutError t cfg.name)

/-- An interleaving element for the statistics tracker: a successful
attempt with its latency, or a failed attempt (updateStats is called
with responseTime 0 on failures, line 80), each with a timestamp. -/
inductive StatOp where
  | succ (latency : ℚ) (now : ℚ)
  | fail (now : ℚ)

/-- Apply a sequence of updateStats calls to one record. -/
def applyStatOps (s : ProviderStats) : List StatOp → ProviderStats
  | [] => s
  | .succ l t :: ops => applyStatOps (updateStatsRecord true l t s) ops
  | .fail t :: ops => applyStatOps (updateStatsRecord false 0 t s) ops

/-- The latencies of the successful attempts, in order. -/
def successLatencies : List StatOp → List ℚ
  | [] => []
  | .succ l _ :: ops => l :: successLatencies ops
  | .fail _ :: ops => successLatencies ops

/-- Arithmetic mean of a list of rationals (0 for the empty list). -/
def meanQ (ls : List ℚ) : ℚ :=
  if ls.length = 0 then 0 else ls.sum / (ls.length : ℚ)

/-- The all-absent stats map. -/
def emptyStatsMap : String → Option ProviderStats := fun _ => none

/-- Round-robin policy state after i calls on a fixed provider list,
starting from a fresh strategy (cursor 0).  A selection error leaves the
state unchanged (the guard throws before the cursor is advanced). -/
def rrStateAfter (ps : List ProviderConfig) : Nat → StrategyState
  | 0 => .roundRobin 0
  | i + 1 =>
    match selectProvider (rrStateAfter ps i) ps emptyStatsMap 0 with
    | .ok (_, st2) => st2
    | .error _ => rrStateAfter ps i

/-- The provider returned by the i-th round-robin call (i from 0). -/
def rrCallResult (ps : List ProviderConfig) (i : Nat) :
    Except String (Option ProviderConfig) :=
  (selectProvider (rrStateAfter ps i) ps emptyStatsMap 0).map Prod.fst

/-- Eligibility as worded by the failover contract: stats entry absent
or healthy. -/
def failoverEligible (stats : String → Option ProviderStats)
    (p : ProviderConfig) : Bool :=
  match stats p.name with
  | none => true
  | some s => s.isHealthy

/-- The provider the failover contract promises: the first eligible one
in list order. -/
def failoverSpecPick (ps : List ProviderConfig)
    (stats : String → Option ProviderStats) : Option ProviderConfig :=
  ps.find? (failoverEligible stats)

/-- Store of stats records for the aliasing model of getStats: a JS
object reference is an index into the store. -/
structure StatsHeap where
  store : List ProviderStats
deriving DecidableEq

/-- The reference held by the stats object under a name. -/
def lookupRef (m : List (String × Nat)) (n : String) : Option Nat :=
  match m.find? (fun kv => kv.fst == n) with
  | some kv => some kv.snd
  | none => none

/-- getStats (load-balancer.ts lines 139-141): the object spread copies
the top-level map, keeping the same per-name record references. -/
def getStatsShallow (m : List (String × Nat)) : List (String × Nat) := m

/-- updateStats in the aliasing model: mutate the record behind the
reference in place (all maps holding that reference observe it). -/
def heapUpdateStats (h : StatsHeap) (m : List (String × Nat)) (name : String)
    (success : Bool) (responseTime now : ℚ) : StatsHeap :=
  match lookupRef m name with
  | none => h
  | some r =>
    match h.store[r]? with
    | none => h
    | some s => ⟨h.store.set r (updateStatsRecord success responseTime now s)⟩

/-- The record a caller reads through a snapshot under a name. -/
def readSnapshot (h : StatsHeap) (m : List (String × Nat)) (n : String) :
    Option ProviderStats :=
  match lookupRef m n with
  | none => none
  | some r => h.store[r]?

/-- A supported provider descriptor used in concrete runs. -/
def oaiCfg : ProviderConfig :=
  { name := "openai", apiKey := "key-1", model := "gpt-3.5-turbo"
    baseUrl := none, weight := none, timeout := none, maxRetries := none }

/-- A second supported provider descriptor. -/
def claudeCfg : ProviderConfig :=
  { name := "claude", apiKey := "key-2", model := "claude-3-haiku"
    baseUrl := none, weight := none, timeout := none, maxRetries := none }

/-- A descriptor sharing the name of oaiCfg but differing otherwise. -/
def oaiCfgV2 : ProviderConfig := { oaiCfg with model := "gpt-4" }

/-- The descriptor a concrete custom strategy function falls back to. -/
def fallbackCfg : ProviderConfig :=
  { name := "fallback", apiKey := "k", model := "m"
    baseUrl := none, weight := none, timeout := none, maxRetries := none }

/-- A concrete custom strategy function: first provider, or the fallback
descriptor when the list is empty. -/
def cexCustomFun : List ProviderConfig → ProviderConfig :=
  fun ps => ps.headD fallbackCfg

/-- A concrete single-provider failover configuration. -/
def cexConfig : LoadBalancerConfig :=
  { strategy := "failover", providers := [oaiCfg], customStrategy := none
    globalTimeout := none, maxRetries := none, retryDelay := none }

/-- The dispatcher state the constructor produces from cexConfig. -/
def w1St : LBState :=
  { config := cexConfig
    providers := setFn (fun _ => none) "openai" (some oaiCfg)
    stats := setFn (fun _ => none) "openai" (some freshStats)
    strategy := .failover }

/-- w1St after one successful attempt of latency 5 at time 1. -/
def w2St : LBState :=
  { w1St with stats := updateStatsMap w1St.stats "openai" true 5 1 }

/-- Concrete run: construct from cexConfig, record one failed attempt,
then run a health sweep whose probe succeeds. -/
def cexRun : Except String LBState :=
  match initialState cexConfig with
  | .error e => .error e
  | .ok st0 =>
    match applyOp st0 (.update "openai" false 0 0) with
    | .error e => .error e
    | .ok st1 => applyOp st1 (.health (fun _ => true))

/-- The record cexRun leaves under the provider name: one failed attempt
on the counters, health flag forced to true by the sweep. -/
def failedOnceHealthy : ProviderStats :=
  { totalRequests := 1, successfulRequests := 0, failedRequests := 1
    averageResponseTime := 0, lastRequestTime := some 0, isHealthy := true }

/-- An environment in which every attempt throws a non-typed error. -/
def allFailEnv : RunEnv :=
  { oracle := fun i => .failRaw ("boom " ++ toString i)
    rand := fun _ => 0, now := fun _ => 0 }

/-- cexConfig with maxRetries set to 2. -/
def cfgRetries2 : LoadBalancerConfig := { cexConfig with maxRetries := some 2 }

/-- cexConfig with maxRetries and retryDelay both set to 0. -/
def cfgZeroes : LoadBalancerConfig :=
  { cexConfig with maxRetries := some 0, retryDelay := some 0 }

/-- A descriptor with an explicit nonzero timeout. -/
def cfgTimeout7000 : ProviderConfig := { oaiCfg with timeout := some 7000 }

/-- A zeroed record marked unhealthy. -/
def unhealthyStats : ProviderStats := { freshStats with isHealthy := false }

/-- A stats map marking the first concrete provider unhealthy. -/
def statsW6 : String → Option ProviderStats :=
  setFn emptyStatsMap "openai" (some unhealthyStats)

/-- Aliasing model: a one-record store holding the fresh record. -/
def aliasHeap0 : StatsHeap := ⟨[freshStats]⟩

/-- Aliasing model: the dispatcher's stats object, one name at ref 0. -/
def aliasMap : List (String × Nat) := [("openai", 0)]

/-- The snapshot a caller receives from getStats before the mutation. -/
def aliasSnap : List (String × Nat) := getStatsShallow aliasMap

/-- The store after updateStats records a success of latency 100 at
time 7, performed after the snapshot was taken. -/
def aliasHeap1 : StatsHeap := heapUpdateStats aliasHeap0 aliasMap "openai" true 100 7

/-- A concrete response value. -/
def okResp : LLMResponse :=
  { content := "ok", usage := none, model := "gpt-3.5-turbo"
    provider := "openai", finishReason := none }

/-- Claim C3 (amended): with an empty provider list, the round-robin,
failover and weighted variants of selectProvider fail with the
no-providers-available error; the custom variant performs no guard and
delegates to the injected function, returning whatever it returns. -/
theorem selectProvider_empty_guard :
    (∀ (idx : Nat) (stats : String → Option ProviderStats) (r : ℚ),
      selectProvider (.roundRobin idx) [] stats r = .error "No providers available") ∧
    (∀ (stats : String → Option ProviderStats) (r : ℚ),
      selectProvider .failover [] stats r = .error "No providers available") ∧
    (∀ (cum : List ℚ) (total : ℚ) (stats : String → Option ProviderStats) (r : ℚ),
      selectProvider (.weighted cum total) [] stats r = .error "No providers available") ∧
    (∀ (f : List ProviderConfig → ProviderConfig)
       (stats : String → Option ProviderStats) (r : ℚ),
      (selectProvider (.custom f) [] stats r).map Prod.fst = .ok (some (f []))) := by
  exact ⟨fun _ _ _ => rfl, fun _ _ => rfl, fun _ _ _ _ => rfl, fun _ _ _ => rfl⟩

/-- Claim C3 counterexample: a custom strategy called on the empty list
does not fail; with a concrete injected function it returns a provider. -/
theorem customStrategy_empty_returns_provider :
    (selectProvider (.custom cexCustomFun) [] emptyStatsMap 0).map Prod.fst =
      .ok (some fallbackCfg) := rfl

/-- Claim C4: getStats spreads only the top level of the stats map; the
per-provider records are shared by reference, so an updateStats call
performed after the snapshot was taken is observable through the
snapshot: the record read through it changes from the fresh record to
the incremented one. -/
theorem getStats_shallow_copy_observed :
    readSnapshot aliasHeap0 aliasSnap "openai" = some freshStats ∧
    (readSnapshot aliasHeap1 aliasSnap "openai").map ProviderStats.totalRequests =
      some 1 ∧
    (readSnapshot aliasHeap1 aliasSnap "openai").map ProviderStats.successfulRequests =
      some 1 ∧
    readSnapshot aliasHeap1 aliasSnap "openai" ≠
      readSnapshot aliasHeap0 aliasSnap "openai" := by
  refine ⟨rfl, by decide, by decide, fun h => ?_⟩
  have h2 := congrArg (Option.map ProviderStats.totalRequests) h
  exact absurd h2 (by decide)

/-- Claim C8: the per-attempt timeout is the descriptor timeout when set
(nonzero), else the global timeout when set (nonzero), else 30000 ms;
when the timer wins the race the attempt fails with the typed timeout
error tagged with the selected provider's name and no status code. -/
theorem attempt_timeout_derivation :
    (∀ (cfg : ProviderConfig) (g : Option Nat) (t : Nat),
      cfg.timeout = some t → t ≠ 0 → computeTimeout cfg g = t) ∧
    (∀ (cfg : ProviderConfig) (gt : Nat),
      cfg.timeout = none → gt ≠ 0 → computeTimeout cfg (some gt) = gt) ∧
    (∀ cfg : ProviderConfig, cfg.timeout = none → computeTimeout cfg none = 30000) ∧
    (∀ (cfg : ProviderConfig) (g : Option Nat),
      makeRequestWithTimeout .hangs cfg g =
        .error (timeoutError (computeTimeout cfg g) cfg.name)) ∧
    (∀ (cfg : ProviderConfig) (g : Option Nat) (dur : Nat)
       (res : Except LLMError LLMResponse),
      computeTimeout cfg g ≤ dur →
        makeRequestWithTimeout (.completes dur res) cfg g =
          .error (timeoutError (computeTimeout cfg g) cfg.name)) ∧
    (∀ (t : Nat) (name : String),
      (timeoutError t name).provider = name ∧ (timeoutError t name).statusCode = none) := by
  refine ⟨?_, ?_, ?_, ?_, ?_, ?_⟩
  · intro cfg g t ht hnz
    unfold computeTimeout
    rw [ht]
    cases t with
    | zero => exact absurd rfl hnz
    | succ n => rfl
  · intro cfg gt ht hnz
    unfold computeTimeout
    rw [ht]
    cases gt with
    | zero => exact absurd rfl hnz
    | succ n => rfl
  · intro cfg ht
    unfold computeTimeout
    rw [ht]
    rfl
  · intro cfg g
    rfl
  · intro cfg g dur res h
    unfold makeRequestWithTimeout
    have hn : ¬ (dur < computeTimeout cfg g) := by omega
    simp [hn]
  · intro t name
    exact ⟨rfl, rfl⟩

/-- Witness for claim C8 at concrete inputs. -/
theorem attempt_timeout_derivation_witness :
    computeTimeout cfgTimeout7000 (some 5000) = 7000 ∧
    computeTimeout oaiCfg (some 5000) = 5000 ∧
    computeTimeout oaiCfg none = 30000 ∧
    makeRequestWithTimeout .hangs cfgTimeout7000 (some 5000) =
      .error (timeoutError (computeTimeout cfgTimeout7000 (some 5000)) cfgTimeout7000.name) ∧
    makeRequestWithTimeout (.completes 8000 (.ok okResp)) cfgTimeout7000 (some 5000) =
      .error (timeoutError (computeTimeout cfgTimeout7000 (some 5000)) cfgTimeout7000.name) := by
  exact ⟨attempt_timeout_derivation.1 cfgTimeout7000 (some 5000) 7000 rfl (by decide),
         attempt_timeout_derivation.2.1 oaiCfg 5000 rfl (by decide),
         attempt_timeout_derivation.2.2.1 oaiCfg rfl,
         attempt_timeout_derivation.2.2.2.1 cfgTimeout7000 (some 5000),
         attempt_timeout_derivation.2.2.2.2.1 cfgTimeout7000 (some 5000) 8000 (.ok okResp)
           (by decide)⟩

theorem rrStateAfter_eq (ps : List ProviderConfig) (h : ps ≠ []) (i : Nat) :
    rrStateAfter ps i = .roundRobin (i % ps.length) := by
  have hlen : ps.length ≠ 0 := fun hh => h (List.length_eq_zero.mp hh)
  induction i with
  | zero =>
    rw [Nat.zero_mod]
    rfl
  | succ n ih =>
    unfold rrStateAfter
    rw [ih]
    simp [selectProvider, hlen, Nat.mod_add_mod]

/-- Claim C5: a fresh round-robin strategy over a fixed non-empty list
of N providers returns, on its i-th call (i from 0), exactly the
provider at index i mod N; hence N sequential calls visit each provider
once in configured order and call N+1 wraps to the first. -/
theorem roundRobin_cycles (ps : List ProviderConfig) (h : ps ≠ []) (i : Nat) :
    rrCallResult ps i =
      .ok (some (ps.get ⟨i % ps.length, Nat.mod_lt i (List.length_pos.mpr h)⟩)) := by
  have hlen : ps.length ≠ 0 := fun hh => h (List.length_eq_zero.mp hh)
  unfold rrCallResult
  rw [rrStateAfter_eq ps h i]
  simp [selectProvider, hlen, Except.map,
    List.getElem?_eq_getElem (Nat.mod_lt i (List.length_pos.mpr h))]

/-- Witness for claim C5: two providers, calls 0, 1 and 2. -/
theorem roundRobin_cycles_witness :
    rrCallResult [oaiCfg, claudeCfg] 0 = .ok (some oaiCfg) ∧
    rrCallResult [oaiCfg, claudeCfg] 1 = .ok (some claudeCfg) ∧
    rrCallResult [oaiCfg, claudeCfg] 2 = .ok (some oaiCfg) := by
  have h : ([oaiCfg, claudeCfg] : List ProviderConfig) ≠ [] := by simp
  exact ⟨(roundRobin_cycles _ h 0).trans rfl,
         (roundRobin_cycles _ h 1).trans rfl,
         (roundRobin_cycles _ h 2).trans rfl⟩

theorem failoverScan_eq_find (stats : String → Option ProviderStats)
    (ps : List ProviderConfig) :
    failoverScan stats ps = ps.find? (failoverEligible stats) := by
  induction ps with
  | nil => rfl
  | cons p ps ih =>
    unfold failoverScan
    cases hs : stats p.name with
    | none =>
      rw [List.find?_cons_of_pos _ (by simp [failoverEligible, hs])]
    | some s =>
      cases hsh : s.isHealthy with
      | true =>
        simp only [hsh, if_true]
        rw [List.find?_cons_of_pos _ (by simp [failoverEligible, hs, hsh])]
      | false =>
        simp only [hsh, Bool.false_eq_true, if_false]
        rw [List.find?_cons_of_neg _ (by simp [failoverEligible, hs, hsh]), ih]

/-- Claim C6: on a non-empty list, failover returns the first provider
whose stats entry is absent or healthy, and the head of the list when no
provider is eligible. -/
theorem failover_selects_first_eligible (ps : List ProviderConfig)
    (stats : String → Option ProviderStats) (r : ℚ) (h : ps ≠ []) :
    selectProvider .failover ps stats r =
      .ok (some ((failoverSpecPick ps stats).getD (ps.head h)), .failover) := by
  have hlen : ps.length ≠ 0 := fun hh => h (List.length_eq_zero.mp hh)
  unfold selectProvider
  rw [if_neg hlen]
  rw [failoverSpecPick, ← failoverScan_eq_find]
  cases hf : failoverScan stats ps with
  | some p => simp
  | none =>
    simp only [Option.getD_none]
    cases ps with
    | nil => exact absurd rfl h
    | cons a l => simp

/-- Witness for claim C6: the first provider is unhealthy, the second
has no stats entry, so failover returns the second. -/
theorem failover_selects_first_eligible_witness :
    selectProvider .failover [oaiCfg, claudeCfg] statsW6 0 =
      .ok (some claudeCfg, .failover) := by
  have h : ([oaiCfg, claudeCfg] : List ProviderConfig) ≠ [] := by simp
  rw [failover_selects_first_eligible _ statsW6 0 h]
  rfl

theorem applyStatOps_avg (ops : List StatOp) : ∀ (s : ProviderStats) (ls : List ℚ),
    s.successfulRequests = ls.length →
    s.averageResponseTime * (ls.length : ℚ) = ls.sum →
    (ls = [] → s.averageResponseTime = 0) →
    (applyStatOps s ops).successfulRequests = (ls ++ successLatencies ops).length ∧
    (applyStatOps s ops).averageResponseTime * ((ls ++ successLatencies ops).length : ℚ) =
      (ls ++ successLatencies ops).sum ∧
    (ls ++ successLatencies ops = [] → (applyStatOps s ops).averageResponseTime = 0) := by
  induction ops with
  | nil =>
    intro s ls h1 h2 h3
    simpa [applyStatOps, successLatencies] using ⟨h1, h2, h3⟩
  | cons op ops ih =>
    intro s ls h1 h2 h3
    cases op with
    | succ l t =>
      have hstep := ih (updateStatsRecord true l t s) (ls ++ [l]) ?_ ?_ ?_
      · simpa [applyStatOps, successLatencies, List.append_assoc] using hstep
      · simp [updateStatsRecord, h1]
      · have hlen : ((ls.length : ℚ) + 1) ≠ 0 := by positivity
        simp only [updateStatsRecord, h1, List.length_append, List.sum_append,
          List.sum_cons, List.sum_nil, List.length_cons, List.length_nil, if_true]
        push_cast
        field_simp
        linear_combination h2
      · intro hcontra
        simp at hcontra
    | fail t =>
      have hstep := ih (updateStatsRecord false 0 t s) ls ?_ ?_ ?_
      · simpa [applyStatOps, successLatencies] using hstep
      · simp [updateStatsRecord, h1]
      · simpa [updateStatsRecord] using h2
      · intro he
        simpa [updateStatsRecord] using h3 he

/-- Claim C7: starting from the fresh record, after any interleaving of
successful updates with latencies l1..lk and failed updates, the
averageResponseTime equals the arithmetic mean of l1..lk (0 when k = 0),
and a failed update never changes the averageResponseTime. -/
theorem averageResponseTime_is_mean :
    (∀ ops : List StatOp,
      (applyStatOps freshStats ops).averageResponseTime = meanQ (successLatencies ops)) ∧
    (∀ (s : ProviderStats) (t : ℚ),
      (updateStatsRecord false 0 t s).averageResponseTime = s.averageResponseTime) := by
  constructor
  · intro ops
    have h := applyStatOps_avg ops freshStats [] rfl (by simp) (fun _ => rfl)
    rcases h with ⟨h1, h2, h3⟩
    simp only [List.nil_append] at h1 h2 h3
    unfold meanQ
    by_cases hnil : successLatencies ops = []
    · rw [if_pos (by simp [hnil])]
      exact h3 hnil
    · have hlen0 : (successLatencies ops).length ≠ 0 :=
        fun hh => hnil (List.length_eq_zero.mp hh)
      rw [if_neg hlen0, eq_div_iff (by exact_mod_cast hlen0)]
      exact h2
  · intro s t
    simp [updateStatsRecord]

theorem attemptOnce_fails (env : RunEnv) (st : LBState) (i : Nat)
    (h : oracleFails (env.oracle i) = true) :
    ∃ e st2, attemptOnce env st i = (.error e, st2) := by
  simp only [attemptOnce]
  split
  · exact ⟨_, _, rfl⟩
  · exact ⟨_, _, rfl⟩
  · split
    · exact ⟨_, _, rfl⟩
    · split
      · next resp elapsed heq =>
        rw [heq] at h
        simp [oracleFails] at h
      · exact ⟨_, _, rfl⟩
      · exact ⟨_, _, rfl⟩

theorem requestAux_allFail_result (env : RunEnv) (k d : Nat) :
    ∀ (fuel : Nat) (st : LBState) (attempt : Nat) (errors : List LLMError)
      (delays : List Nat),
    (∀ i, attempt ≤ i → i < attempt + fuel → oracleFails (env.oracle i) = true) →
    (requestAux env k d fuel st attempt errors delays).result =
      .error { message := aggMsg k, errors := errors ++ errTrace env fuel st attempt } := by
  intro fuel
  induction fuel with
  | zero =>
    intro st attempt errors delays _
    simp [requestAux, errTrace]
  | succ n ih =>
    intro st attempt errors delays hf
    obtain ⟨e, st2, heq⟩ := attemptOnce_fails env st attempt (hf attempt le_rfl (by omega))
    simp only [requestAux, heq, errTrace]
    by_cases hc : attempt < k - 1
    · rw [if_pos hc,
        ih st2 (attempt + 1) (errors ++ [e]) (delays ++ [d * 2 ^ attempt])
          (fun i h1 h2 => hf i (by omega) (by omega))]
      simp
    · rw [if_neg hc,
        ih st2 (attempt + 1) (errors ++ [e]) delays
          (fun i h1 h2 => hf i (by omega) (by omega))]
      simp

theorem requestAux_allFail_delays (env : RunEnv) (k d : Nat) :
    ∀ (fuel : Nat) (st : LBState) (attempt : Nat) (errors : List LLMError)
      (delays : List Nat),
    (∀ i, attempt ≤ i → i < attempt + fuel → oracleFails (env.oracle i) = true) →
    (requestAux env k d fuel st attempt errors delays).delays =
      delays ++ delayTrace d k fuel attempt := by
  intro fuel
  induction fuel with
  | zero =>
    intro st attempt errors delays _
    simp [requestAux, delayTrace]
  | succ n ih =>
    intro st attempt errors delays hf
    obtain ⟨e, st2, heq⟩ := attemptOnce_fails env st attempt (hf attempt le_rfl (by omega))
    simp only [requestAux, heq, delayTrace]
    by_cases hc : attempt < k - 1
    · rw [if_pos hc, if_pos hc,
        ih st2 (attempt + 1) (errors ++ [e]) (delays ++ [d * 2 ^ attempt])
          (fun i h1 h2 => hf i (by omega) (by omega))]
      simp
    · rw [if_neg hc, if_neg hc,
        ih st2 (attempt + 1) (errors ++ [e]) delays
          (fun i h1 h2 => hf i (by omega) (by omega))]

theorem errTrace_length (env : RunEnv) :
    ∀ (fuel : Nat) (st : LBState) (attempt : Nat),
    (∀ i, attempt ≤ i → i < attempt + fuel → oracleFails (env.oracle i) = true) →
    (errTrace env fuel st attempt).length = fuel := by
  intro fuel
  induction fuel with
  | zero =>
    intro st attempt _
    rfl
  | succ n ih =>
    intro st attempt hf
    obtain ⟨e, st2, heq⟩ := attemptOnce_fails env st attempt (hf attempt le_rfl (by omega))
    simp only [errTrace, heq, List.length_cons]
    rw [ih st2 (attempt + 1) (fun i h1 h2 => hf i (by omega) (by omega))]

/-- Claim C2: when maxRetries is configured as k (k at least 1) and all
k attempts fail, request terminates with the aggregate error whose
message names k and whose error list is exactly the sequence of
per-attempt errors, in attempt order, of length k. -/
theorem request_aggregate_errors (cfg : LoadBalancerConfig) (env : RunEnv)
    (st : LBState) (k : Nat) (hk : cfg.maxRetries = some k) (hk1 : 1 ≤ k)
    (hfail : ∀ i, i < k → oracleFails (env.oracle i) = true) :
    (request cfg env st).result =
      .error { message := "All providers failed after " ++ toString k ++ " attempts"
               errors := errTrace env k st 0 } ∧
    (errTrace env k st 0).length = k := by
  have hkk : jsOrNat cfg.maxRetries 3 = k := by
    rw [hk]
    cases k with
    | zero => omega
    | succ n => rfl
  constructor
  · have h := requestAux_allFail_result env k (jsOrNat cfg.retryDelay 1000) k st 0 [] []
      (fun i h1 h2 => hfail i (by omega))
    simp only [List.nil_append] at h
    simp only [request, hkk]
    exact h
  · exact errTrace_length env k st 0 (fun i h1 h2 => hfail i (by omega))

/-- Witness for claim C2: two providers configured for two attempts,
every attempt failing. -/
theorem request_aggregate_errors_witness :
    (request cfgRetries2 allFailEnv w1St).result =
      .error { message := "All providers failed after " ++ toString 2 ++ " attempts"
               errors := errTrace allFailEnv 2 w1St 0 } ∧
    (errTrace allFailEnv 2 w1St 0).length = 2 :=
  request_aggregate_errors cfgRetries2 allFailEnv w1St 2 rfl (by omega)
    (fun i _ => rfl)

/-- Claim C9: numeric configuration values equal to 0 are treated as
absent: maxRetries 0 yields the default 3 attempts, retryDelay 0 yields
the default 1000 ms backoff base (delays 1000 and 2000 over the 3
all-failing attempts), and a descriptor timeout of 0 falls through to
the global timeout or the 30000 ms default. -/
theorem zero_config_values_fall_back (cfg : LoadBalancerConfig) (env : RunEnv)
    (st : LBState)
    (h0 : cfg.maxRetries = some 0) (hd : cfg.retryDelay = some 0)
    (hfail : ∀ i, i < 3 → oracleFails (env.oracle i) = true) :
    (request cfg env st).result =
      .error { message := aggMsg 3, errors := errTrace env 3 st 0 } ∧
    (errTrace env 3 st 0).length = 3 ∧
    (request cfg env st).delays = [1000, 2000] ∧
    (∀ (p : ProviderConfig) (g : Option Nat), p.timeout = some 0 →
      computeTimeout p g = jsOrNat g 30000) := by
  have hkk : jsOrNat cfg.maxRetries 3 = 3 := by rw [h0]; rfl
  have hdd : jsOrNat cfg.retryDelay 1000 = 1000 := by rw [hd]; rfl
  refine ⟨?_, ?_, ?_, ?_⟩
  · have h := requestAux_allFail_result env 3 (jsOrNat cfg.retryDelay 1000) 3 st 0 [] []
      (fun i h1 h2 => hfail i (by omega))
    simp only [List.nil_append] at h
    simp only [request, hkk]
    exact h
  · exact errTrace_length env 3 st 0 (fun i h1 h2 => hfail i (by omega))
  · have h := requestAux_allFail_delays env 3 1000 3 st 0 [] []
      (fun i h1 h2 => hfail i (by omega))
    simp only [List.nil_append] at h
    simp only [request, hkk, hdd]
    rw [h]
    rfl
  · intro p g hp
    unfold computeTimeout
    rw [hp]
    rfl

/-- Witness for claim C9: maxRetries and retryDelay both 0, all attempts
failing, and a concrete descriptor with timeout 0. -/
theorem zero_config_values_fall_back_witness :
    (request cfgZeroes allFailEnv w1St).result =
      .error { message := aggMsg 3, errors := errTrace allFailEnv 3 w1St 0 } ∧
    (errTrace allFailEnv 3 w1St 0).length = 3 ∧
    (request cfgZeroes allFailEnv w1St).delays = [1000, 2000] ∧
    computeTimeout { oaiCfg with timeout := some 0 } (some 5000) =
      jsOrNat (some 5000) 30000 := by
  have h := zero_config_values_fall_back cfgZeroes allFailEnv w1St rfl rfl
    (fun i _ => rfl)
  exact ⟨h.1, h.2.1, h.2.2.1, h.2.2.2 _ (some 5000) rfl⟩

theorem statsInvariant_fresh : statsInvariant freshStats := by
  refine ⟨rfl, ?_, fun _ => rfl⟩
  intro h
  simp [freshStats] at h

theorem updateRec_sum (success : Bool) (rt now : ℚ) (s : ProviderStats)
    (h : s.totalRequests = s.successfulRequests + s.failedRequests) :
    (updateStatsRecord success rt now s).totalRequests =
      (updateStatsRecord success rt now s).successfulRequests +
      (updateStatsRecord success rt now s).failedRequests := by
  cases success <;> simp [updateStatsRecord] <;> omega

theorem statsInvariant_update (success : Bool) (rt now : ℚ) (s : ProviderStats)
    (h : s.totalRequests = s.successfulRequests + s.failedRequests) :
    statsInvariant (updateStatsRecord success rt now s) := by
  refine ⟨updateRec_sum success rt now s h, fun _ => rfl, fun h0 => ?_⟩
  simp [updateStatsRecord] at h0

theorem initMaps_stats (cfgs : List ProviderConfig) :
    ∀ (pm : String → Option ProviderConfig) (sm : String → Option ProviderStats)
      (pm2 : String → Option ProviderConfig) (sm2 : String → Option ProviderStats),
    initMaps cfgs pm sm = .ok (pm2, sm2) →
    (∀ n s, sm n = some s → statsInvariant s) →
    (∀ n s, sm2 n = some s → statsInvariant s) := by
  induction cfgs with
  | nil =>
    intro pm sm pm2 sm2 h hOK
    simp only [initMaps, Except.ok.injEq, Prod.mk.injEq] at h
    obtain ⟨h1, h2⟩ := h
    subst h2
    exact hOK
  | cons c cs ih =>
    intro pm sm pm2 sm2 h hOK
    simp only [initMaps] at h
    cases hc : createProvider c with
    | error e =>
      rw [hc] at h
      cases h
    | ok ad =>
      rw [hc] at h
      refine ih _ _ _ _ h ?_
      intro n s hs
      by_cases hn : n = c.name
      · simp [setFn, hn] at hs
        rw [← hs]
        exact statsInvariant_fresh
      · simp [setFn, hn] at hs
        exact hOK n s hs

/-- Claim C1 (amended): the per-record invariant (counters sum up; the
health flag equals the over-one-half success-rate derivation once any
attempt happened; a fresh record is healthy) holds after construction
and is preserved by updateStats, addProvider and removeProvider; the
health sweep preserves the counter equation but writes the probe
outcome directly into isHealthy, which can diverge from the success-rate
derivation. -/
theorem dispatcher_stats_invariant :
    (∀ (cfg : LoadBalancerConfig) (st : LBState),
      initialState cfg = .ok st → statsOK st) ∧
    (∀ (st : LBState) (op : DispatcherOp) (st2 : LBState),
      statsOK st → applyOp st op = .ok st2 → op.isHealth = false → statsOK st2) ∧
    (∀ (st : LBState) (op : DispatcherOp) (st2 : LBState),
      sumOK st → applyOp st op = .ok st2 → sumOK st2) := by
  refine ⟨?_, ?_, ?_⟩
  · intro cfg st h
    simp only [initialState] at h
    cases him : initMaps cfg.providers (fun _ => none) (fun _ => none) with
    | error e =>
      rw [him] at h
      cases h
    | ok pr =>
      obtain ⟨pm, sm⟩ := pr
      rw [him] at h
      cases hcs : createStrategy cfg.strategy cfg.providers cfg.customStrategy with
      | error e =>
        rw [hcs] at h
        cases h
      | ok strat =>
        rw [hcs] at h
        cases h
        intro n s hs
        exact initMaps_stats cfg.providers _ _ _ _ him (fun n s hns => by cases hns) n s hs
  · intro st op st2 hOK happ hnh
    cases op with
    | update name success elapsed now =>
      cases happ
      intro n s hs
      simp only [updateStatsMap] at hs
      by_cases hn : n = name
      · rw [if_pos hn] at hs
        cases hm : st.stats name with
        | none => rw [hm] at hs; cases hs
        | some s0 =>
          rw [hm] at hs
          simp only [Option.map_some', Option.some.injEq] at hs
          rw [← hs]
          exact statsInvariant_update success elapsed now s0 (hOK name s0 hm).1
      · rw [if_neg hn] at hs
        exact hOK n s hs
    | add cfg =>
      simp only [applyOp, addProvider] at happ
      cases hc : createProvider cfg with
      | error e => rw [hc] at happ; cases happ
      | ok ad =>
        rw [hc] at happ
        cases hcs : createStrategy st.config.strategy (st.config.providers ++ [cfg])
            st.config.customStrategy with
        | error e => rw [hcs] at happ; cases happ
        | ok strat =>
          rw [hcs] at happ
          cases happ
          intro n s hs
          by_cases hn : n = cfg.name
          · simp [setFn, hn] at hs
            rw [← hs]
            exact statsInvariant_fresh
          · simp [setFn, hn] at hs
            exact hOK n s hs
    | remove name =>
      simp only [applyOp, removeProvider] at happ
      cases hcs : createStrategy st.config.strategy
          (st.config.providers.filter (fun p => p.name != name))
          st.config.customStrategy with
      | error e => rw [hcs] at happ; cases happ
      | ok strat =>
        rw [hcs] at happ
        cases happ
        intro n s hs
        by_cases hn : n = name
        · simp [setFn, hn] at hs
        · simp [setFn, hn] at hs
          exact hOK n s hs
    | health probe => simp [DispatcherOp.isHealth] at hnh
  · intro st op st2 hsum happ
    cases op with
    | update name success elapsed now =>
      cases happ
      intro n s hs
      simp only [updateStatsMap] at hs
      by_cases hn : n = name
      · rw [if_pos hn] at hs
        cases hm : st.stats name with
        | none => rw [hm] at hs; cases hs
        | some s0 =>
          rw [hm] at hs
          simp only [Option.map_some', Option.some.injEq] at hs
          rw [← hs]
          exact updateRec_sum success elapsed now s0 (hsum name s0 hm)
      · rw [if_neg hn] at hs
        exact hsum n s hs
    | add cfg =>
      simp only [applyOp, addProvider] at happ
      cases hc : createProvider cfg with
      | error e => rw [hc] at happ; cases happ
      | ok ad =>
        rw [hc] at happ
        cases hcs : createStrategy st.config.strategy (st.config.providers ++ [cfg])
            st.config.customStrategy with
        | error e => rw [hcs] at happ; cases happ
        | ok strat =>
          rw [hcs] at happ
          cases happ
          intro n s hs
          by_cases hn : n = cfg.name
          · simp [setFn, hn] at hs
            rw [← hs]
            rfl
          · simp [setFn, hn] at hs
            exact hsum n s hs
    | remove name =>
      simp only [applyOp, removeProvider] at happ
      cases hcs : createStrategy st.config.strategy
          (st.config.providers.filter (fun p => p.name != name))
          st.config.customStrategy with
      | error e => rw [hcs] at happ; cases happ
      | ok strat =>
        rw [hcs] at happ
        cases happ
        intro n s hs
        by_cases hn : n = name
        · simp [setFn, hn] at hs
        · simp [setFn, hn] at hs
          exact hsum n s hs
    | health probe =>
      cases happ
      intro n s hs
      simp only [healthCheckStats] at hs
      by_cases hcond : ((configuredNames st).contains n && (st.providers n).isSome) = true
      · rw [if_pos hcond] at hs
        cases hm : st.stats n with
        | none => rw [hm] at hs; cases hs
        | some s0 =>
          rw [hm] at hs
          simp only [Option.map_some', Option.some.injEq] at hs
          rw [← hs]
          exact hsum n s0 hm
      · rw [if_neg hcond] at hs
        exact hsum n s hs

/-- Witness for claim C1: the constructed single-provider state and the
state after one successful update satisfy the invariant. -/
theorem dispatcher_stats_invariant_witness :
    statsOK w1St ∧ statsOK w2St ∧ sumOK w2St := by
  have h1 : statsOK w1St := dispatcher_stats_invariant.1 cexConfig w1St rfl
  have h2 : statsOK w2St :=
    dispatcher_stats_invariant.2.1 w1St (.update "openai" true 5 1) w2St h1 rfl rfl
  exact ⟨h1, h2, fun n s hs => (h2 n s hs).1⟩

/-- Claim C1 counterexample: construct from one provider, record one
failed attempt (making the record unhealthy by the success-rate rule),
then run a health sweep whose probe succeeds.  The sweep writes
isHealthy := true while the success rate is 0 of 1, so the claimed
derivation of isHealthy does not hold after healthCheck. -/
theorem healthCheck_breaks_health_derivation :
    cexRun.map (fun st => st.stats "openai") = .ok (some failedOnceHealthy) ∧
    0 < failedOnceHealthy.totalRequests ∧
    failedOnceHealthy.isHealthy = true ∧
    ¬ statsInvariant failedOnceHealthy := by
  refine ⟨rfl, by decide, rfl, ?_⟩
  intro h
  obtain ⟨_, h2, _⟩ := h
  have ht := h2 (by decide)
  have hp : ((failedOnceHealthy.successfulRequests : ℚ) /
      (failedOnceHealthy.totalRequests : ℚ)) > 1 / 2 :=
    of_decide_eq_true ht.symm
  norm_num [failedOnceHealthy] at hp

/-- Claim C10: addProvider with a descriptor whose (supported) name is
already configured does not fail: it replaces that name's adapter with
one built from the new descriptor, appends the descriptor to the
configured list (so the name now occurs one more time, a duplicate), and
resets that name's statistics entry to the fresh zeroed healthy record. -/
theorem addProvider_duplicate_name (st : LBState) (cfg : ProviderConfig)
    (hsup : supportedProviderNames.contains (jsToLower cfg.name) = true)
    (hreg : cfg.name ∈ st.config.providers.map ProviderConfig.name)
    (hstrat : ∃ strat, createStrategy st.config.strategy
      (st.config.providers ++ [cfg]) st.config.customStrategy = .ok strat) :
    ∃ st2, addProvider st cfg = .ok st2 ∧
      st2.providers cfg.name = some cfg ∧
      st2.config.providers = st.config.providers ++ [cfg] ∧
      (st2.config.providers.filter (fun p => p.name == cfg.name)).length =
        (st.config.providers.filter (fun p => p.name == cfg.name)).length + 1 ∧
      1 ≤ (st.config.providers.filter (fun p => p.name == cfg.name)).length ∧
      st2.stats cfg.name = some freshStats := by
  obtain ⟨strat, hs⟩ := hstrat
  have hcp : createProvider cfg = .ok cfg := by
    unfold createProvider
    rw [if_pos hsup]
  refine ⟨{ config := { st.config with providers := st.config.providers ++ [cfg] }
            providers := setFn st.providers cfg.name (some cfg)
            stats := setFn st.stats cfg.name (some freshStats)
            strategy := strat }, ?_, ?_, rfl, ?_, ?_, ?_⟩
  · simp only [addProvider, hcp, hs]
  · simp [setFn]
  · simp only [List.filter_append]
    rw [List.length_append]
    simp
  · obtain ⟨p, hp, hpname⟩ := List.mem_map.mp hreg
    have hmem : p ∈ st.config.providers.filter (fun q => q.name == cfg.name) :=
      List.mem_filter.mpr ⟨hp, by simp [hpname]⟩
    have hpos := List.length_pos.mpr (List.ne_nil_of_mem hmem)
    omega
  · simp [setFn]

/-- Witness for claim C10: add a descriptor reusing the registered name
with a different model. -/
theorem addProvider_duplicate_name_witness :
    (addProvider w1St oaiCfgV2).map (fun st2 => st2.providers oaiCfgV2.name) =
      .ok (some oaiCfgV2) ∧
    (addProvider w1St oaiCfgV2).map (fun st2 => st2.config.providers) =
      .ok [oaiCfg, oaiCfgV2] ∧
    (addProvider w1St oaiCfgV2).map
      (fun st2 => (st2.config.providers.filter
        (fun p => p.name == oaiCfgV2.name)).length) = .ok 2 ∧
    (addProvider w1St oaiCfgV2).map (fun st2 => st2.stats oaiCfgV2.name) =
      .ok (some freshStats) := by
  obtain ⟨st2, h1, h2, h3, h4, h5, h6⟩ :=
    addProvider_duplicate_name w1St oaiCfgV2 rfl (by decide) ⟨.failover, rfl⟩
  rw [h1]
  simp only [Except.map]
  refine ⟨by rw [h2], by rw [h3]; rfl, ?_, by rw [h6]⟩
  rw [h4]
  rfl
